import Mathlib

/-!
Shallow embedding of the planner-mcp tool contract and dispatch engine.

The Go source represents argument bags, schema property descriptors and
tool registries as maps with string keys holding dynamically typed
values (Go `interface\x7b\x7d`).  We embed such a dynamic value as the
inductive `Value` below and a map as an association list whose keys are
unique in every state the Go program can produce; `assocGet` is map
lookup and `assocSet` is map assignment (overwrite-or-insert).

All machine errors produced by `Tool.Run` (Go `fmt.Errorf` values) are
embedded as the inductive `GoError`, with `GoError.message` giving the
exact Go message string.
-/

set_option autoImplicit false

namespace PlannerMcp

/-- A dynamic JSON-decoded Go value (`interface\x7b\x7d`): one of string,
float64, int, bool, `[]interface\x7b\x7d`, `map[string]interface\x7b\x7d`, or nil. -/
inductive Value where
  | vstr : String → Value
  | vfloat : Float → Value
  | vint : Int → Value
  | vbool : Bool → Value
  | varr : List Value → Value
  | vobj : List (String × Value) → Value
  | vnull : Value

/-- An argument bag: `map[string]any` in the source. -/
abbrev Bag := List (String × Value)

/-- Map lookup on an association list (first match wins; Go map keys are unique). -/
def assocGet {α : Type} : List (String × α) → String → Option α
  | [], _ => none
  | (k, w) :: rest, key => if k = key then some w else assocGet rest key

/-- Map assignment `m[key] = v`: overwrite the existing entry, else append. -/
def assocSet {α : Type} : List (String × α) → String → α → List (String × α)
  | [], key, v => [(key, v)]
  | (k, w) :: rest, key, v =>
    if k = key then (key, v) :: rest else (k, w) :: assocSet rest key v

/-- The Go dynamic type name of a value, as printed by the `%T` format verb. -/
def goTypeName : Value → String
  | .vstr _ => "string"
  | .vfloat _ => "float64"
  | .vint _ => "int"
  | .vbool _ => "bool"
  | .varr _ => "[]interface \x7b\x7d"
  | .vobj _ => "map[string]interface \x7b\x7d"
  | .vnull => "<nil>"

/-- The errors `Tool.Run` can return (each a distinct `fmt.Errorf` call in the
source), plus `handlerFailure` for an error returned by a tool's handler. -/
inductive GoError where
  | missingRequiredField (field : String)
  | invalidSchemaDefinition (prop : String)
  | missingOrInvalidType (prop : String)
  | typeMismatch (prop expected actual : String)
  | handlerFailure (msg : String)
  deriving DecidableEq

/-- The exact Go error message string of each error. -/
def GoError.message : GoError → String
  | .missingRequiredField f => "missing required field: " ++ f
  | .invalidSchemaDefinition p => "invalid schema definition for property: " ++ p
  | .missingOrInvalidType p => "missing or invalid type in schema for property: " ++ p
  | .typeMismatch p exp act => "invalid type for " ++ p ++ ": expected " ++ exp ++ ", got " ++ act
  | .handlerFailure m => m

def Value.isStr : Value → Bool
  | .vstr _ => true
  | _ => false

def Value.isFloat : Value → Bool
  | .vfloat _ => true
  | _ => false

def Value.isInt : Value → Bool
  | .vint _ => true
  | _ => false

def Value.isBool : Value → Bool
  | .vbool _ => true
  | _ => false

def Value.isArr : Value → Bool
  | .varr _ => true
  | _ => false

def Value.isObj : Value → Bool
  | .vobj _ => true
  | _ => false

def Value.isNull : Value → Bool
  | .vnull => true
  | _ => false

/-- `validateType` from the source: does the dynamic value match the
expected JSON-schema type tag?  Each branch is the corresponding Go type
assertion of the source's switch statement. -/
def validateType (value : Value) (expectedType : String) : Bool :=
  if expectedType = "string" then value.isStr
  else if expectedType = "number" then value.isFloat || value.isInt
  else if expectedType = "integer" then value.isInt
  else if expectedType = "boolean" then value.isBool
  else if expectedType = "array" then value.isArr
  else if expectedType = "object" then value.isObj
  else if expectedType = "null" then value.isNull
  else false

/-- The seven type tags `validateType` supports. -/
def supportedTags : List String :=
  ["string", "number", "integer", "boolean", "array", "object", "null"]

/-- `ToolInputSchema` from the source.  `properties` maps a property name to
its descriptor, itself a dynamic value (a `map[string]interface\x7b\x7d` in
well-formed schemas). -/
structure ToolInputSchema where
  type : String
  properties : List (String × Value)
  required : List String

/-- `TextContent` from the source. -/
structure TextContent where
  type : String
  text : String
  deriving DecidableEq

/-- `ToolResult` from the source. -/
structure ToolResult where
  Content : List TextContent
  deriving DecidableEq

/-- A Go `context.Context`, opaque to the dispatch engine: it is only threaded
through to the handler unchanged. -/
structure Ctx where
  id : Nat
  deriving DecidableEq

/-- `ToolRunParams` from the source. -/
structure ToolRunParams where
  Name : String
  Args : Bag

/-- `ToolHandlerFunc` from the source: `(*ToolResult, error)` becomes a pair
of options (Go allows each side independently to be nil or not). -/
abbrev ToolHandlerFunc := Ctx → ToolRunParams → Option ToolResult × Option GoError

/-- `Tool` from the source. -/
structure Tool where
  Name : String
  Description : String
  InputSchema : ToolInputSchema
  Handler : ToolHandlerFunc

/-- `ToolListResult` from the source. -/
structure ToolListResult where
  Tools : List Tool

/-- The required-fields loop of `Tool.Run`: the first name of `required`
without a key in the bag yields `missing required field`. -/
def checkRequired : List String → Bag → Option GoError
  | [], _ => none
  | f :: rest, bag =>
    if (assocGet bag f).isSome then checkRequired rest bag
    else some (.missingRequiredField f)

/-- The properties loop of `Tool.Run`.  For each declared property present in
the bag: the descriptor must be a map (`invalid schema definition`), its
"type" entry must be a string (`missing or invalid type`), and the value must
satisfy `validateType` (`invalid type for ...`); on success the source
reassigns `params.Args[propName] = propValue` (modelled by `assocSet`) and
continues.  Returns the bag as left by the loop together with the error, if
any, that aborted it. -/
def checkProps : List (String × Value) → Bag → Bag × Option GoError
  | [], bag => (bag, none)
  | (propName, propSchema) :: rest, bag =>
    match assocGet bag propName with
    | none => checkProps rest bag
    | some propValue =>
      match propSchema with
      | .vobj propSchemaMap =>
        match assocGet propSchemaMap "type" with
        | some (.vstr schemaType) =>
          if validateType propValue schemaType then
            checkProps rest (assocSet bag propName propValue)
          else (bag, some (.typeMismatch propName schemaType (goTypeName propValue)))
        | _ => (bag, some (.missingOrInvalidType propName))
      | _ => (bag, some (.invalidSchemaDefinition propName))

/-- The whole validation phase of `Tool.Run`: required fields first, then the
properties loop. -/
def validateBag (schema : ToolInputSchema) (bag : Bag) : Bag × Option GoError :=
  match checkRequired schema.required bag with
  | some e => (bag, some e)
  | none => checkProps schema.properties bag

/-- Whether one property would pass the body of the properties loop against
this bag without aborting (absent counts as a pass: the loop skips it). -/
def propOk (bag : Bag) : String × Value → Bool
  | (propName, propSchema) =>
    match assocGet bag propName with
    | none => true
    | some propValue =>
      match propSchema with
      | .vobj propSchemaMap =>
        match assocGet propSchemaMap "type" with
        | some (.vstr schemaType) => validateType propValue schemaType
        | _ => false
      | _ => false

/-- `Tool.Run` from the source: validate the bag against the tool's own
schema; on any validation failure return (nil, error); otherwise call the
handler with the caller's context, the caller's name and the bag as left by
the validation loops. -/
def Tool.Run (t : Tool) (ctx : Ctx) (params : ToolRunParams) :
    Option ToolResult × Option GoError :=
  match validateBag t.InputSchema params.Args with
  | (_, some e) => (none, some e)
  | (args2, none) => t.Handler ctx ⟨params.Name, args2⟩

/-- The registry built by `handleMcp`: `toolMap[t.Name] = t` for each tool in
order, so a later tool with the same name overwrites an earlier one. -/
def buildToolMap (tools : List Tool) : List (String × Tool) :=
  tools.foldl (fun m t => assocSet m t.Name t) []

/-- The JSON response of the `/tools/call` endpoint, by shape: HTTP 200 with
`status: success` and the result content, or an HTTP failure status with an
error message, or a nil-pointer crash (the Go handler dereferences
`res.Content` when `Run` returns a nil result with a nil error). -/
inductive McpResponse where
  | success (result : List TextContent)
  | failure (status : Nat) (errMsg : String)
  | crashNilResult
  deriving DecidableEq

/-- The `/tools/call` endpoint of `handleMcp`: look the requested name up in
the tool map; absent gives HTTP 404 "Tool not found: ..."; present runs the
tool, turning an error into HTTP 500 with the error's message and a result
into HTTP 200 with `status: success` and the result's content. -/
def toolsCall (tools : List Tool) (ctx : Ctx) (reqName : String) (arguments : Bag) :
    McpResponse :=
  match assocGet (buildToolMap tools) reqName with
  | some tool =>
    match tool.Run ctx ⟨reqName, arguments⟩ with
    | (_, some e) => .failure 500 e.message
    | (some res, none) => .success res.Content
    | (none, none) => .crashNilResult
  | none => .failure 404 ("Tool not found: " ++ reqName)

/-- The `/tools/list` endpoint of `handleMcp`: it encodes
`ToolListResult\x7btools\x7d` built from the closure's `tools` slice. -/
def toolsList (tools : List Tool) : ToolListResult := ⟨tools⟩

/-- One `/tools/call` request together with the server state it leaves
behind.  The Go handler closure holds `tools` and `toolMap` and never writes
either (the only write in the call path is `Tool.Run`'s self-assignment into
the request's own argument bag), so the tool list after the request is the
tool list before it. -/
def toolsCallSt (tools : List Tool) (ctx : Ctx) (reqName : String) (arguments : Bag) :
    McpResponse × List Tool :=
  (toolsCall tools ctx reqName arguments, tools)

/-- A handler that ignores its inputs and reports a fixed text result,
standing in for the weather handler of the source's example tool. -/
def demoHandler : ToolHandlerFunc := fun _ _ => (some ⟨[⟨"text", "ok"⟩]⟩, none)

/-- The example tool registered by `main`, with the weather handler replaced
by `demoHandler` (its business logic is outside the dispatch engine). -/
def demoTool : Tool :=
  ⟨"get-forecast", "Get weather alerts for a state",
    ⟨"object",
      [("state", .vobj [("type", .vstr "string"),
                        ("description", .vstr "The state to get weather alerts for")])],
      ["state"]⟩,
    demoHandler⟩

/-- A misconfigured tool whose property descriptor is not a map. -/
def badDescTool : Tool :=
  ⟨"bad-desc", "demo", ⟨"object", [("state", .vstr "string")], []⟩, demoHandler⟩

/-- Overwriting a key with the value it already holds leaves the map unchanged. -/
theorem assocSet_self {α : Type} (m : List (String × α)) (k : String) (v : α)
    (h : assocGet m k = some v) : assocSet m k v = m := by
  induction m with
  | nil => simp [assocGet] at h
  | cons p rest ih =>
    obtain ⟨k2, w⟩ := p
    by_cases hk : k2 = k
    · subst hk
      simp [assocGet] at h
      simp [assocSet, h]
    · rw [assocGet, if_neg hk] at h
      rw [assocSet, if_neg hk, ih h]

/-- Setting one key does not change the lookup of another key. -/
theorem assocGet_set_ne {α : Type} (m : List (String × α)) (k : String) (v : α)
    (key : String) (h : k ≠ key) :
    assocGet (assocSet m k v) key = assocGet m key := by
  induction m with
  | nil => simp [assocSet, assocGet, h]
  | cons p rest ih =>
    obtain ⟨k2, w⟩ := p
    by_cases hk : k2 = k
    · subst hk
      simp [assocSet, assocGet, h]
    · by_cases hkey : k2 = key
      · subst hkey
        simp [assocSet, hk, assocGet]
      · simp [assocSet, hk, assocGet, hkey, ih]

/-- Properties loop, one step: a property absent from the bag is skipped. -/
theorem checkProps_cons_absent (n : String) (d : Value) (rest : List (String × Value))
    (bag : Bag) (hg : assocGet bag n = none) :
    checkProps ((n, d) :: rest) bag = checkProps rest bag := by
  simp [checkProps, hg]

/-- Properties loop, one step: a present property whose descriptor is not a
map aborts with `invalid schema definition`. -/
theorem checkProps_cons_badDesc (n : String) (d : Value) (rest : List (String × Value))
    (bag : Bag) (v : Value) (hg : assocGet bag n = some v) (hd : d.isObj = false) :
    checkProps ((n, d) :: rest) bag = (bag, some (.invalidSchemaDefinition n)) := by
  cases d with
  | vobj dm => simp [Value.isObj] at hd
  | vstr s => simp [checkProps, hg]
  | vfloat x => simp [checkProps, hg]
  | vint n2 => simp [checkProps, hg]
  | vbool b => simp [checkProps, hg]
  | varr l => simp [checkProps, hg]
  | vnull => simp [checkProps, hg]

/-- Properties loop, one step: a present property whose descriptor map has no
"type" entry aborts with `missing or invalid type`. -/
theorem checkProps_cons_noTag (n : String) (dm : List (String × Value))
    (rest : List (String × Value)) (bag : Bag) (v : Value)
    (hg : assocGet bag n = some v) (ht : assocGet dm "type" = none) :
    checkProps ((n, .vobj dm) :: rest) bag = (bag, some (.missingOrInvalidType n)) := by
  simp [checkProps, hg, ht]

/-- Properties loop, one step: a present property whose descriptor's "type"
entry is not a string aborts with `missing or invalid type`. -/
theorem checkProps_cons_badTag (n : String) (dm : List (String × Value))
    (rest : List (String × Value)) (bag : Bag) (v tv : Value)
    (hg : assocGet bag n = some v) (ht : assocGet dm "type" = some tv)
    (htv : tv.isStr = false) :
    checkProps ((n, .vobj dm) :: rest) bag = (bag, some (.missingOrInvalidType n)) := by
  cases tv with
  | vstr s => simp [Value.isStr] at htv
  | vfloat x => simp [checkProps, hg, ht]
  | vint n2 => simp [checkProps, hg, ht]
  | vbool b => simp [checkProps, hg, ht]
  | varr l => simp [checkProps, hg, ht]
  | vobj m2 => simp [checkProps, hg, ht]
  | vnull => simp [checkProps, hg, ht]

/-- Properties loop, one step: a present property failing its type check
aborts with `invalid type for ...`, carrying the property name, the expected
tag and the Go dynamic type of the value. -/
theorem checkProps_cons_mismatch (n : String) (dm : List (String × Value)) (tg : String)
    (rest : List (String × Value)) (bag : Bag) (v : Value)
    (hg : assocGet bag n = some v) (ht : assocGet dm "type" = some (.vstr tg))
    (hv : validateType v tg = false) :
    checkProps ((n, .vobj dm) :: rest) bag =
      (bag, some (.typeMismatch n tg (goTypeName v))) := by
  simp [checkProps, hg, ht, hv]

/-- Properties loop, one step: a present property passing its type check is
rewritten onto itself (a no-op) and the loop continues on the same bag. -/
theorem checkProps_cons_pass (n : String) (dm : List (String × Value)) (tg : String)
    (rest : List (String × Value)) (bag : Bag) (v : Value)
    (hg : assocGet bag n = some v) (ht : assocGet dm "type" = some (.vstr tg))
    (hv : validateType v tg = true) :
    checkProps ((n, .vobj dm) :: rest) bag = checkProps rest bag := by
  simp only [checkProps, hg, ht]
  rw [if_pos hv, assocSet_self bag n v hg]

/-- The properties loop returns the bag it was given: its only write is
`assocSet bag propName propValue` right after `assocGet bag propName`
returned that same `propValue`. -/
theorem checkProps_fst (props : List (String × Value)) : ∀ (bag : Bag),
    (checkProps props bag).1 = bag := by
  induction props with
  | nil => intro bag; rfl
  | cons q rest ih =>
    intro bag
    obtain ⟨n, d⟩ := q
    cases hg : assocGet bag n with
    | none => rw [checkProps_cons_absent n d rest bag hg]; exact ih bag
    | some v =>
      cases d with
      | vobj dm =>
        cases ht : assocGet dm "type" with
        | none => rw [checkProps_cons_noTag n dm rest bag v hg ht]
        | some tv =>
          cases tv with
          | vstr tg =>
            by_cases hv : validateType v tg
            · rw [checkProps_cons_pass n dm tg rest bag v hg ht hv]; exact ih bag
            · rw [checkProps_cons_mismatch n dm tg rest bag v hg ht
                (Bool.eq_false_iff.mpr hv)]
          | vfloat x => rw [checkProps_cons_badTag n dm rest bag v (.vfloat x) hg ht rfl]
          | vint n2 => rw [checkProps_cons_badTag n dm rest bag v (.vint n2) hg ht rfl]
          | vbool b => rw [checkProps_cons_badTag n dm rest bag v (.vbool b) hg ht rfl]
          | varr l => rw [checkProps_cons_badTag n dm rest bag v (.varr l) hg ht rfl]
          | vobj m2 => rw [checkProps_cons_badTag n dm rest bag v (.vobj m2) hg ht rfl]
          | vnull => rw [checkProps_cons_badTag n dm rest bag v .vnull hg ht rfl]
      | vstr s => rw [checkProps_cons_badDesc n (.vstr s) rest bag v hg rfl]
      | vfloat x => rw [checkProps_cons_badDesc n (.vfloat x) rest bag v hg rfl]
      | vint n2 => rw [checkProps_cons_badDesc n (.vint n2) rest bag v hg rfl]
      | vbool b => rw [checkProps_cons_badDesc n (.vbool b) rest bag v hg rfl]
      | varr l => rw [checkProps_cons_badDesc n (.varr l) rest bag v hg rfl]
      | vnull => rw [checkProps_cons_badDesc n .vnull rest bag v hg rfl]

/-- The validation phase returns the bag it was given. -/
theorem validateBag_fst (schema : ToolInputSchema) (bag : Bag) :
    (validateBag schema bag).1 = bag := by
  rw [validateBag]
  cases h : checkRequired schema.required bag with
  | none => exact checkProps_fst schema.properties bag
  | some e => rfl

/-- The required-fields loop succeeds exactly when every required name has a
key in the bag; the value under the key is never examined. -/
theorem checkRequired_eq_none_iff (req : List String) (bag : Bag) :
    checkRequired req bag = none ↔ ∀ f ∈ req, (assocGet bag f).isSome = true := by
  induction req with
  | nil => simp [checkRequired]
  | cons f rest ih =>
    by_cases h : (assocGet bag f).isSome
    · simp [checkRequired, h, ih, List.forall_mem_cons]
    · simp [checkRequired, h, List.forall_mem_cons]

/-- If some required name is missing from the bag, the required-fields loop
fails with `missing required field` for a missing required name. -/
theorem checkRequired_missing (req : List String) (bag : Bag) (f : String)
    (hf : f ∈ req) (habs : assocGet bag f = none) :
    ∃ g, g ∈ req ∧ assocGet bag g = none ∧
      checkRequired req bag = some (.missingRequiredField g) := by
  induction req with
  | nil => cases hf
  | cons r rest ih =>
    by_cases hr : (assocGet bag r).isSome
    · have hfr : f ∈ rest := by
        rcases List.mem_cons.mp hf with h | h
        · subst h; rw [habs] at hr; simp at hr
        · exact h
      obtain ⟨g, hg1, hg2, hg3⟩ := ih hfr
      exact ⟨g, List.mem_cons_of_mem _ hg1, hg2, by simp [checkRequired, hr, hg3]⟩
    · refine ⟨r, List.mem_cons_self _ _, ?_, by simp [checkRequired, hr]⟩
      cases hgr : assocGet bag r with
      | none => rfl
      | some v => rw [hgr] at hr; simp at hr

/-- A property that passes the loop body (or is absent) contributes nothing:
the loop continues on the same bag. -/
theorem checkProps_cons_ok (bag : Bag) (n : String) (d : Value)
    (rest : List (String × Value)) (h : propOk bag (n, d) = true) :
    checkProps ((n, d) :: rest) bag = checkProps rest bag := by
  cases hg : assocGet bag n with
  | none => exact checkProps_cons_absent n d rest bag hg
  | some v =>
    cases d with
    | vobj dm =>
      cases ht : assocGet dm "type" with
      | none => simp [propOk, hg, ht] at h
      | some tv =>
        cases tv with
        | vstr tg =>
          have hv : validateType v tg = true := by simpa [propOk, hg, ht] using h
          exact checkProps_cons_pass n dm tg rest bag v hg ht hv
        | vfloat x => simp [propOk, hg, ht] at h
        | vint n2 => simp [propOk, hg, ht] at h
        | vbool b => simp [propOk, hg, ht] at h
        | varr l => simp [propOk, hg, ht] at h
        | vobj m2 => simp [propOk, hg, ht] at h
        | vnull => simp [propOk, hg, ht] at h
    | vstr s => simp [propOk, hg] at h
    | vfloat x => simp [propOk, hg] at h
    | vint n2 => simp [propOk, hg] at h
    | vbool b => simp [propOk, hg] at h
    | varr l => simp [propOk, hg] at h
    | vnull => simp [propOk, hg] at h

/-- A whole leading block of passing properties contributes nothing. -/
theorem checkProps_append_ok (props1 rest : List (String × Value)) (bag : Bag)
    (h : ∀ q ∈ props1, propOk bag q = true) :
    checkProps (props1 ++ rest) bag = checkProps rest bag := by
  induction props1 with
  | nil => rfl
  | cons q qs ih =>
    rw [List.cons_append]
    obtain ⟨n, d⟩ := q
    rw [checkProps_cons_ok bag n d (qs ++ rest) (h _ (List.mem_cons_self _ _))]
    exact ih (fun q2 hq => h q2 (List.mem_cons_of_mem _ hq))

/-- The required-fields loop only looks at presence of the required names, so
bags agreeing on that presence get the same outcome. -/
theorem checkRequired_congr (req : List String) (bag1 bag2 : Bag)
    (h : ∀ f ∈ req, (assocGet bag1 f).isSome = (assocGet bag2 f).isSome) :
    checkRequired req bag1 = checkRequired req bag2 := by
  induction req with
  | nil => rfl
  | cons f rest ih =>
    have hf := h f (List.mem_cons_self _ _)
    rw [checkRequired, checkRequired, hf]
    by_cases h2 : (assocGet bag2 f).isSome
    · rw [if_pos h2, if_pos h2]
      exact ih (fun g hg => h g (List.mem_cons_of_mem _ hg))
    · rw [if_neg h2, if_neg h2]

/-- The properties loop only looks the declared property names up in the bag,
so bags agreeing on those lookups get the same verdict. -/
theorem checkProps_snd_congr (props : List (String × Value)) (bag1 bag2 : Bag)
    (h : ∀ p ∈ props.map Prod.fst, assocGet bag1 p = assocGet bag2 p) :
    (checkProps props bag1).2 = (checkProps props bag2).2 := by
  induction props with
  | nil => rfl
  | cons q rest ih =>
    obtain ⟨n, d⟩ := q
    have hn : assocGet bag1 n = assocGet bag2 n :=
      h n (by simp)
    have hrest : ∀ p ∈ rest.map Prod.fst, assocGet bag1 p = assocGet bag2 p :=
      fun p hp => h p (by simp [hp])
    cases hg : assocGet bag2 n with
    | none =>
      rw [checkProps_cons_absent n d rest bag1 (hn.trans hg),
        checkProps_cons_absent n d rest bag2 hg]
      exact ih hrest
    | some v =>
      have hg1 : assocGet bag1 n = some v := hn.trans hg
      cases d with
      | vobj dm =>
        cases ht : assocGet dm "type" with
        | none =>
          rw [checkProps_cons_noTag n dm rest bag1 v hg1 ht,
            checkProps_cons_noTag n dm rest bag2 v hg ht]
        | some tv =>
          cases tv with
          | vstr tg =>
            by_cases hv : validateType v tg
            · rw [checkProps_cons_pass n dm tg rest bag1 v hg1 ht hv,
                checkProps_cons_pass n dm tg rest bag2 v hg ht hv]
              exact ih hrest
            · have hvf := Bool.eq_false_iff.mpr hv
              rw [checkProps_cons_mismatch n dm tg rest bag1 v hg1 ht hvf,
                checkProps_cons_mismatch n dm tg rest bag2 v hg ht hvf]
          | vfloat x =>
            rw [checkProps_cons_badTag n dm rest bag1 v (.vfloat x) hg1 ht rfl,
              checkProps_cons_badTag n dm rest bag2 v (.vfloat x) hg ht rfl]
          | vint n2 =>
            rw [checkProps_cons_badTag n dm rest bag1 v (.vint n2) hg1 ht rfl,
              checkProps_cons_badTag n dm rest bag2 v (.vint n2) hg ht rfl]
          | vbool b =>
            rw [checkProps_cons_badTag n dm rest bag1 v (.vbool b) hg1 ht rfl,
              checkProps_cons_badTag n dm rest bag2 v (.vbool b) hg ht rfl]
          | varr l =>
            rw [checkProps_cons_badTag n dm rest bag1 v (.varr l) hg1 ht rfl,
              checkProps_cons_badTag n dm rest bag2 v (.varr l) hg ht rfl]
          | vobj m2 =>
            rw [checkProps_cons_badTag n dm rest bag1 v (.vobj m2) hg1 ht rfl,
              checkProps_cons_badTag n dm rest bag2 v (.vobj m2) hg ht rfl]
          | vnull =>
            rw [checkProps_cons_badTag n dm rest bag1 v .vnull hg1 ht rfl,
              checkProps_cons_badTag n dm rest bag2 v .vnull hg ht rfl]
      | vstr s =>
        rw [checkProps_cons_badDesc n (.vstr s) rest bag1 v hg1 rfl,
          checkProps_cons_badDesc n (.vstr s) rest bag2 v hg rfl]
      | vfloat x =>
        rw [checkProps_cons_badDesc n (.vfloat x) rest bag1 v hg1 rfl,
          checkProps_cons_badDesc n (.vfloat x) rest bag2 v hg rfl]
      | vint n2 =>
        rw [checkProps_cons_badDesc n (.vint n2) rest bag1 v hg1 rfl,
          checkProps_cons_badDesc n (.vint n2) rest bag2 v hg rfl]
      | vbool b =>
        rw [checkProps_cons_badDesc n (.vbool b) rest bag1 v hg1 rfl,
          checkProps_cons_badDesc n (.vbool b) rest bag2 v hg rfl]
      | varr l =>
        rw [checkProps_cons_badDesc n (.varr l) rest bag1 v hg1 rfl,
          checkProps_cons_badDesc n (.varr l) rest bag2 v hg rfl]
      | vnull =>
        rw [checkProps_cons_badDesc n .vnull rest bag1 v hg1 rfl,
          checkProps_cons_badDesc n .vnull rest bag2 v hg rfl]

/-- Prepending the same property block to two property lists with equal
verdicts keeps the verdicts equal. -/
theorem checkProps_snd_append_congr (props1 props2 props3 : List (String × Value))
    (bag : Bag) (h : (checkProps props2 bag).2 = (checkProps props3 bag).2) :
    (checkProps (props1 ++ props2) bag).2 = (checkProps (props1 ++ props3) bag).2 := by
  induction props1 with
  | nil => exact h
  | cons q rest ih =>
    obtain ⟨n, d⟩ := q
    rw [List.cons_append, List.cons_append]
    cases hg : assocGet bag n with
    | none =>
      rw [checkProps_cons_absent n d _ bag hg, checkProps_cons_absent n d _ bag hg]
      exact ih
    | some v =>
      cases d with
      | vobj dm =>
        cases ht : assocGet dm "type" with
        | none =>
          rw [checkProps_cons_noTag n dm _ bag v hg ht,
            checkProps_cons_noTag n dm _ bag v hg ht]
        | some tv =>
          cases tv with
          | vstr tg =>
            by_cases hv : validateType v tg
            · rw [checkProps_cons_pass n dm tg _ bag v hg ht hv,
                checkProps_cons_pass n dm tg _ bag v hg ht hv]
              exact ih
            · have hvf := Bool.eq_false_iff.mpr hv
              rw [checkProps_cons_mismatch n dm tg _ bag v hg ht hvf,
                checkProps_cons_mismatch n dm tg _ bag v hg ht hvf]
          | vfloat x =>
            rw [checkProps_cons_badTag n dm _ bag v (.vfloat x) hg ht rfl,
              checkProps_cons_badTag n dm _ bag v (.vfloat x) hg ht rfl]
          | vint n2 =>
            rw [checkProps_cons_badTag n dm _ bag v (.vint n2) hg ht rfl,
              checkProps_cons_badTag n dm _ bag v (.vint n2) hg ht rfl]
          | vbool b =>
            rw [checkProps_cons_badTag n dm _ bag v (.vbool b) hg ht rfl,
              checkProps_cons_badTag n dm _ bag v (.vbool b) hg ht rfl]
          | varr l =>
            rw [checkProps_cons_badTag n dm _ bag v (.varr l) hg ht rfl,
              checkProps_cons_badTag n dm _ bag v (.varr l) hg ht rfl]
          | vobj m2 =>
            rw [checkProps_cons_badTag n dm _ bag v (.vobj m2) hg ht rfl,
              checkProps_cons_badTag n dm _ bag v (.vobj m2) hg ht rfl]
          | vnull =>
            rw [checkProps_cons_badTag n dm _ bag v .vnull hg ht rfl,
              checkProps_cons_badTag n dm _ bag v .vnull hg ht rfl]
      | vstr s =>
        rw [checkProps_cons_badDesc n (.vstr s) _ bag v hg rfl,
          checkProps_cons_badDesc n (.vstr s) _ bag v hg rfl]
      | vfloat x =>
        rw [checkProps_cons_badDesc n (.vfloat x) _ bag v hg rfl,
          checkProps_cons_badDesc n (.vfloat x) _ bag v hg rfl]
      | vint n2 =>
        rw [checkProps_cons_badDesc n (.vint n2) _ bag v hg rfl,
          checkProps_cons_badDesc n (.vint n2) _ bag v hg rfl]
      | vbool b =>
        rw [checkProps_cons_badDesc n (.vbool b) _ bag v hg rfl,
          checkProps_cons_badDesc n (.vbool b) _ bag v hg rfl]
      | varr l =>
        rw [checkProps_cons_badDesc n (.varr l) _ bag v hg rfl,
          checkProps_cons_badDesc n (.varr l) _ bag v hg rfl]
      | vnull =>
        rw [checkProps_cons_badDesc n .vnull _ bag v hg rfl,
          checkProps_cons_badDesc n .vnull _ bag v hg rfl]

/-- Any tag outside the seven supported ones makes `validateType` fail for
every value. -/
theorem validateType_unsupported (v : Value) (tg : String) (h : tg ∉ supportedTags) :
    validateType v tg = false := by
  simp only [supportedTags, List.mem_cons, List.not_mem_nil, or_false, not_or] at h
  obtain ⟨h1, h2, h3, h4, h5, h6, h7⟩ := h
  simp [validateType, h1, h2, h3, h4, h5, h6, h7]

/-- A name carried by no registered tool is absent from the built tool map. -/
theorem buildToolMap_not_found (tools : List Tool) (reqName : String)
    (h : reqName ∉ tools.map Tool.Name) :
    assocGet (buildToolMap tools) reqName = none := by
  have main : ∀ (ts : List Tool) (m : List (String × Tool)),
      reqName ∉ ts.map Tool.Name → assocGet m reqName = none →
      assocGet (ts.foldl (fun m2 t => assocSet m2 t.Name t) m) reqName = none := by
    intro ts
    induction ts with
    | nil => intro m _ hm; exact hm
    | cons t rest ih =>
      intro m hts hm
      rw [List.foldl_cons]
      have hne : t.Name ≠ reqName := by
        intro he
        exact hts (by simp [he])
      apply ih
      · intro hmem
        exact hts (by simp [List.map_cons, List.mem_cons]; exact Or.inr (by simpa using hmem))
      · rw [assocGet_set_ne m t.Name t reqName hne]
        exact hm
  exact main tools [] h rfl

/-- An error from the required-fields check is the validation verdict. -/
theorem validateBag_snd_of_required (schema : ToolInputSchema) (bag : Bag) (e : GoError)
    (h : checkRequired schema.required bag = some e) :
    (validateBag schema bag).2 = some e := by
  rw [validateBag, h]

/-- After the required-fields check passes, the verdict is the properties
loop's. -/
theorem validateBag_snd_of_props (schema : ToolInputSchema) (bag : Bag)
    (h : checkRequired schema.required bag = none) :
    (validateBag schema bag).2 = (checkProps schema.properties bag).2 := by
  rw [validateBag, h]

/-- On any validation error, `Tool.Run` returns no result and that error,
whatever the tool's handler is. -/
theorem run_eq_validate (t : Tool) (ctx : Ctx) (params : ToolRunParams) (e : GoError)
    (h : (validateBag t.InputSchema params.Args).2 = some e) :
    Tool.Run t ctx params = (none, some e) := by
  rw [Tool.Run]
  rcases hv : validateBag t.InputSchema params.Args with ⟨a, b⟩
  rw [hv] at h
  have hb : b = some e := h
  subst hb
  rfl

/-- When validation passes, `Tool.Run` is exactly one call of the handler on
the caller's context and the unchanged parameters. -/
theorem run_of_valid (t : Tool) (ctx : Ctx) (params : ToolRunParams)
    (h : (validateBag t.InputSchema params.Args).2 = none) :
    Tool.Run t ctx params = t.Handler ctx params := by
  have hfst := validateBag_fst t.InputSchema params.Args
  rw [Tool.Run]
  rcases hv : validateBag t.InputSchema params.Args with ⟨a, b⟩
  rw [hv] at h hfst
  have hb : b = none := h
  have ha : a = params.Args := hfst
  subst hb
  subst ha
  rfl

/-- Claim C2: for each of the seven supported type tags, a present value whose
dynamic type matches the tag passes `validateType`: strings pass "string";
both int and float64 values pass "number"; "integer" accepts an int and
rejects a float64 even one with zero fractional part; bools pass "boolean";
slices pass "array"; maps pass "object"; nil passes "null". -/
theorem validateType_supported_tags
    (s : String) (n : Int) (x : Float) (b : Bool)
    (l : List Value) (m : List (String × Value)) :
    validateType (.vstr s) "string" = true ∧
    validateType (.vint n) "number" = true ∧
    validateType (.vfloat x) "number" = true ∧
    validateType (.vint n) "integer" = true ∧
    validateType (.vfloat x) "integer" = false ∧
    validateType (.vbool b) "boolean" = true ∧
    validateType (.varr l) "array" = true ∧
    validateType (.vobj m) "object" = true ∧
    validateType Value.vnull "null" = true :=
  ⟨rfl, rfl, rfl, rfl, rfl, rfl, rfl, rfl, rfl⟩

/-- Claim C1: if some name in the schema's required list has no key in the
argument bag, `Tool.Run` fails with a `missing required field` error naming a
missing required field and returns no result; the outcome is the same for
every handler, so the tool's handler is never invoked. -/
theorem run_missing_required_field
    (nm ds ty : String) (props : List (String × Value)) (req : List String)
    (handler : ToolHandlerFunc) (ctx : Ctx) (cname : String) (bag : Bag)
    (f : String) (hf : f ∈ req) (habs : assocGet bag f = none) :
    ∃ g, g ∈ req ∧ assocGet bag g = none ∧
      Tool.Run ⟨nm, ds, ⟨ty, props, req⟩, handler⟩ ctx ⟨cname, bag⟩ =
        (none, some (.missingRequiredField g)) := by
  obtain ⟨g, hg1, hg2, hg3⟩ := checkRequired_missing req bag f hf habs
  exact ⟨g, hg1, hg2,
    run_eq_validate _ ctx ⟨cname, bag⟩ _
      (validateBag_snd_of_required ⟨ty, props, req⟩ bag _ hg3)⟩

/-- Witness for claim C1: the example tool called with an empty bag fails with
`missing required field: state`, the spec's scenario 1. -/
theorem run_missing_required_field_witness :
    ∃ g, g ∈ ["state"] ∧ assocGet ([] : Bag) g = none ∧
      Tool.Run demoTool ⟨0⟩ ⟨"get-forecast", []⟩ =
        (none, some (.missingRequiredField g)) :=
  run_missing_required_field "get-forecast" "Get weather alerts for a state" "object"
    [("state", .vobj [("type", .vstr "string"),
                      ("description", .vstr "The state to get weather alerts for")])]
    ["state"] demoHandler ⟨0⟩ "get-forecast" [] "state"
    (List.mem_cons_self _ _) rfl

/-- Claim C3: a declared property present in the bag whose value fails its
declared tag makes `Tool.Run` fail (for every handler) with the
`invalid type for ...` error carrying the property name, the expected tag and
the Go dynamic type of the value, provided validation reaches it (the
required names are all present and the properties the loop visits first all
pass); and a tag outside the seven supported ones fails `validateType` for
every value, never silently passing. -/
theorem run_type_mismatch :
    (∀ (nm ds ty : String) (props1 props2 : List (String × Value)) (p : String)
       (dm : List (String × Value)) (tg : String) (req : List String)
       (handler : ToolHandlerFunc) (ctx : Ctx) (cname : String) (bag : Bag) (v : Value),
       checkRequired req bag = none →
       (∀ q ∈ props1, propOk bag q = true) →
       assocGet bag p = some v →
       assocGet dm "type" = some (.vstr tg) →
       validateType v tg = false →
       Tool.Run ⟨nm, ds, ⟨ty, props1 ++ (p, .vobj dm) :: props2, req⟩, handler⟩ ctx
           ⟨cname, bag⟩ =
         (none, some (.typeMismatch p tg (goTypeName v)))) ∧
    (∀ (v : Value) (tg : String), tg ∉ supportedTags → validateType v tg = false) := by
  constructor
  · intro nm ds ty props1 props2 p dm tg req handler ctx cname bag v hreq hok hget htype hval
    have h1 : (validateBag ⟨ty, props1 ++ (p, .vobj dm) :: props2, req⟩ bag).2
        = (checkProps (props1 ++ (p, .vobj dm) :: props2) bag).2 :=
      validateBag_snd_of_props _ bag hreq
    rw [checkProps_append_ok props1 _ bag hok,
      checkProps_cons_mismatch p dm tg props2 bag v hget htype hval] at h1
    exact run_eq_validate _ ctx ⟨cname, bag⟩ _ h1
  · exact validateType_unsupported

/-- Witness for claim C3: the example tool called with `state: 42` fails with
`invalid type for state: expected string, got int`, the spec's scenario 2. -/
theorem run_type_mismatch_witness :
    Tool.Run demoTool ⟨0⟩ ⟨"get-forecast", [("state", .vint 42)]⟩ =
      (none, some (.typeMismatch "state" "string" "int")) :=
  run_type_mismatch.1 "get-forecast" "Get weather alerts for a state" "object" [] []
    "state" [("type", .vstr "string"),
             ("description", .vstr "The state to get weather alerts for")]
    "string" ["state"] demoHandler ⟨0⟩ "get-forecast" [("state", .vint 42)] (.vint 42)
    rfl (fun q hq => absurd hq (List.not_mem_nil q)) rfl rfl rfl

/-- Claim C4: dispatching a name carried by no registered tool finds nothing
in the tool map and answers HTTP 404 `Tool not found: name`; the response is
a fixed function of the name alone, whatever each tool's schema, handler or
the argument bag is, so no validation runs and no handler is invoked. -/
theorem dispatch_tool_not_found (tools : List Tool) (ctx : Ctx) (reqName : String)
    (arguments : Bag) (h : reqName ∉ tools.map Tool.Name) :
    assocGet (buildToolMap tools) reqName = none ∧
    toolsCall tools ctx reqName arguments =
      .failure 404 ("Tool not found: " ++ reqName) := by
  have hnone := buildToolMap_not_found tools reqName h
  refine ⟨hnone, ?_⟩
  simp [toolsCall, hnone]

/-- Witness for claim C4: a registry holding only `get-forecast` answers
`Tool not found: get-alerts`, the spec's scenario 4. -/
theorem dispatch_tool_not_found_witness :
    toolsCall [demoTool] ⟨0⟩ "get-alerts" [] =
      .failure 404 ("Tool not found: " ++ "get-alerts") :=
  (dispatch_tool_not_found [demoTool] ⟨0⟩ "get-alerts" [] (by decide)).2

/-- Claim C5: dispatching a registered name with a bag that passes the tool's
validation makes `Tool.Run` equal to exactly one application of that tool's
handler to the caller's context and unchanged parameters — nothing of the
handler's output is reinterpreted — and the endpoint answers
`status: success` carrying the handler's result content (or propagates the
handler's error message under HTTP 500 unchanged). -/
theorem dispatch_invokes_handler_unchanged
    (tools : List Tool) (t : Tool) (ctx : Ctx) (reqName : String) (arguments : Bag)
    (hfind : assocGet (buildToolMap tools) reqName = some t)
    (hval : (validateBag t.InputSchema arguments).2 = none) :
    Tool.Run t ctx ⟨reqName, arguments⟩ = t.Handler ctx ⟨reqName, arguments⟩ ∧
    (∀ r, t.Handler ctx ⟨reqName, arguments⟩ = (some r, none) →
      toolsCall tools ctx reqName arguments = .success r.Content) ∧
    (∀ res e, t.Handler ctx ⟨reqName, arguments⟩ = (res, some e) →
      toolsCall tools ctx reqName arguments = .failure 500 e.message) := by
  have hrun : Tool.Run t ctx ⟨reqName, arguments⟩ = t.Handler ctx ⟨reqName, arguments⟩ :=
    run_of_valid t ctx ⟨reqName, arguments⟩ hval
  refine ⟨hrun, ?_, ?_⟩
  · intro r hr
    simp [toolsCall, hfind, hrun, hr]
  · intro res e he
    simp [toolsCall, hfind, hrun, he]

/-- Witness for claim C5: the example tool called with `state: "CA"` reaches
its handler and the endpoint answers success with the handler's content, the
spec's scenario 3. -/
theorem dispatch_invokes_handler_unchanged_witness :
    toolsCall [demoTool] ⟨0⟩ "get-forecast" [("state", .vstr "CA")] =
      .success [⟨"text", "ok"⟩] :=
  (dispatch_invokes_handler_unchanged [demoTool] demoTool ⟨0⟩ "get-forecast"
      [("state", .vstr "CA")] rfl rfl).2.1 ⟨[⟨"text", "ok"⟩]⟩ rfl

/-- Claim C6: a declared property present in the bag whose schema descriptor
lacks a usable type tag makes `Tool.Run` fail (for every handler, provided
validation reaches it): with `invalid schema definition for property` when
the descriptor is not a map, and with `missing or invalid type in schema for
property` when its "type" entry is missing or not a string — both naming the
property and both distinct from the caller-input errors
(`missing required field` and `invalid type for ...`). -/
theorem run_invalid_schema_definition :
    (∀ (nm ds ty : String) (props1 props2 : List (String × Value)) (p : String)
       (d : Value) (req : List String) (handler : ToolHandlerFunc) (ctx : Ctx)
       (cname : String) (bag : Bag) (v : Value),
       checkRequired req bag = none →
       (∀ q ∈ props1, propOk bag q = true) →
       assocGet bag p = some v →
       d.isObj = false →
       Tool.Run ⟨nm, ds, ⟨ty, props1 ++ (p, d) :: props2, req⟩, handler⟩ ctx
           ⟨cname, bag⟩ =
         (none, some (.invalidSchemaDefinition p))) ∧
    (∀ (nm ds ty : String) (props1 props2 : List (String × Value)) (p : String)
       (dm : List (String × Value)) (req : List String) (handler : ToolHandlerFunc)
       (ctx : Ctx) (cname : String) (bag : Bag) (v : Value),
       checkRequired req bag = none →
       (∀ q ∈ props1, propOk bag q = true) →
       assocGet bag p = some v →
       (∀ s, assocGet dm "type" ≠ some (.vstr s)) →
       Tool.Run ⟨nm, ds, ⟨ty, props1 ++ (p, .vobj dm) :: props2, req⟩, handler⟩ ctx
           ⟨cname, bag⟩ =
         (none, some (.missingOrInvalidType p))) ∧
    (∀ (p f a b c : String),
       GoError.invalidSchemaDefinition p ≠ GoError.missingRequiredField f ∧
       GoError.invalidSchemaDefinition p ≠ GoError.typeMismatch a b c ∧
       GoError.missingOrInvalidType p ≠ GoError.missingRequiredField f ∧
       GoError.missingOrInvalidType p ≠ GoError.typeMismatch a b c) := by
  refine ⟨?_, ?_, ?_⟩
  · intro nm ds ty props1 props2 p d req handler ctx cname bag v hreq hok hget hd
    have h1 : (validateBag ⟨ty, props1 ++ (p, d) :: props2, req⟩ bag).2
        = (checkProps (props1 ++ (p, d) :: props2) bag).2 :=
      validateBag_snd_of_props _ bag hreq
    rw [checkProps_append_ok props1 _ bag hok,
      checkProps_cons_badDesc p d props2 bag v hget hd] at h1
    exact run_eq_validate _ ctx ⟨cname, bag⟩ _ h1
  · intro nm ds ty props1 props2 p dm req handler ctx cname bag v hreq hok hget hns
    have h1 : (validateBag ⟨ty, props1 ++ (p, .vobj dm) :: props2, req⟩ bag).2
        = (checkProps (props1 ++ (p, .vobj dm) :: props2) bag).2 :=
      validateBag_snd_of_props _ bag hreq
    rw [checkProps_append_ok props1 _ bag hok] at h1
    cases ht : assocGet dm "type" with
    | none =>
      rw [checkProps_cons_noTag p dm props2 bag v hget ht] at h1
      exact run_eq_validate _ ctx ⟨cname, bag⟩ _ h1
    | some tv =>
      cases tv with
      | vstr s => exact absurd ht (hns s)
      | vfloat x =>
        rw [checkProps_cons_badTag p dm props2 bag v (.vfloat x) hget ht rfl] at h1
        exact run_eq_validate _ ctx ⟨cname, bag⟩ _ h1
      | vint n2 =>
        rw [checkProps_cons_badTag p dm props2 bag v (.vint n2) hget ht rfl] at h1
        exact run_eq_validate _ ctx ⟨cname, bag⟩ _ h1
      | vbool b =>
        rw [checkProps_cons_badTag p dm props2 bag v (.vbool b) hget ht rfl] at h1
        exact run_eq_validate _ ctx ⟨cname, bag⟩ _ h1
      | varr l =>
        rw [checkProps_cons_badTag p dm props2 bag v (.varr l) hget ht rfl] at h1
        exact run_eq_validate _ ctx ⟨cname, bag⟩ _ h1
      | vobj m2 =>
        rw [checkProps_cons_badTag p dm props2 bag v (.vobj m2) hget ht rfl] at h1
        exact run_eq_validate _ ctx ⟨cname, bag⟩ _ h1
      | vnull =>
        rw [checkProps_cons_badTag p dm props2 bag v .vnull hget ht rfl] at h1
        exact run_eq_validate _ ctx ⟨cname, bag⟩ _ h1
  · intro p f a b c
    exact ⟨fun h => GoError.noConfusion h, fun h => GoError.noConfusion h,
      fun h => GoError.noConfusion h, fun h => GoError.noConfusion h⟩

/-- Witness for claim C6: a tool whose `state` descriptor is the bare string
"string" instead of a map fails with `invalid schema definition for
property: state` when `state` is supplied. -/
theorem run_invalid_schema_definition_witness :
    Tool.Run badDescTool ⟨0⟩ ⟨"bad-desc", [("state", .vstr "CA")]⟩ =
      (none, some (.invalidSchemaDefinition "state")) :=
  run_invalid_schema_definition.1 "bad-desc" "demo" "object" [] [] "state"
    (.vstr "string") [] demoHandler ⟨0⟩ "bad-desc" [("state", .vstr "CA")]
    (.vstr "CA") rfl (fun q hq => absurd hq (List.not_mem_nil q)) rfl rfl

/-- Claim C7 counterexample: the `/tools/list` endpoint returns the
registration slice itself, so a registry built from a list that registers the
same tool twice lists it twice — duplicate entries, contradicting the claim
as stated for every registry built from a list of tools. -/
theorem toolsList_duplicate_counterexample :
    ¬ (toolsList [demoTool, demoTool]).Tools.Nodup := by
  intro h
  exact (List.nodup_cons.mp h).1 (List.mem_singleton.mpr rfl)

/-- Claim C7 as amended: `/tools/list` returns exactly the registration list
— one entry per registered tool, in registration order — with no duplicate
entries whenever the registered tool names are distinct; and a `/tools/call`
request leaves the registry unchanged, so the listing is independent of call
order and prior dispatches. -/
theorem toolsList_one_entry_per_tool (tools : List Tool) (ctx : Ctx)
    (reqName : String) (arguments : Bag) :
    (toolsList tools).Tools = tools ∧
    ((tools.map Tool.Name).Nodup → (toolsList tools).Tools.Nodup) ∧
    (toolsCallSt tools ctx reqName arguments).2 = tools ∧
    toolsList (toolsCallSt tools ctx reqName arguments).2 = toolsList tools := by
  refine ⟨rfl, ?_, rfl, rfl⟩
  intro h
  exact List.Nodup.of_map Tool.Name h

/-- Witness for claim C7 (amended): a registry of the single example tool
lists it once with no duplicates. -/
theorem toolsList_one_entry_per_tool_witness :
    (toolsList [demoTool]).Tools.Nodup :=
  (toolsList_one_entry_per_tool [demoTool] ⟨0⟩ "get-forecast" []).2.1 (by simp)

/-- Claim C8: validation only examines required-name presence and the values
under declared property names — two bags agreeing there get the same verdict;
adding an extra key not declared in the schema's properties to a passing bag
never makes validation fail; and a declared property that is absent from the
bag and not required contributes nothing to the verdict. -/
theorem validation_ignores_undeclared_and_absent :
    (∀ (schema : ToolInputSchema) (bag1 bag2 : Bag),
       (∀ p ∈ schema.properties.map Prod.fst, assocGet bag1 p = assocGet bag2 p) →
       (∀ f ∈ schema.required, (assocGet bag1 f).isSome = (assocGet bag2 f).isSome) →
       (validateBag schema bag1).2 = (validateBag schema bag2).2) ∧
    (∀ (ty : String) (props : List (String × Value)) (req : List String)
       (k : String) (v : Value) (bag : Bag),
       k ∉ props.map Prod.fst →
       (validateBag ⟨ty, props, req⟩ bag).2 = none →
       (validateBag ⟨ty, props, req⟩ ((k, v) :: bag)).2 = none) ∧
    (∀ (ty : String) (props1 props2 : List (String × Value)) (nm : String) (d : Value)
       (req : List String) (bag : Bag),
       assocGet bag nm = none → nm ∉ req →
       (validateBag ⟨ty, props1 ++ (nm, d) :: props2, req⟩ bag).2 =
         (validateBag ⟨ty, props1 ++ props2, req⟩ bag).2) := by
  refine ⟨?_, ?_, ?_⟩
  · intro schema bag1 bag2 hp hr
    simp only [validateBag]
    rw [checkRequired_congr schema.required bag1 bag2 hr]
    cases h : checkRequired schema.required bag2 with
    | some e => rfl
    | none => exact checkProps_snd_congr schema.properties bag1 bag2 hp
  · intro ty props req k v bag hk hnone
    cases hcr : checkRequired req bag with
    | some e => simp [validateBag, hcr] at hnone
    | none =>
      have hprops : (checkProps props bag).2 = none := by
        simpa [validateBag, hcr] using hnone
      have hreq2 : checkRequired req ((k, v) :: bag) = none := by
        rw [checkRequired_eq_none_iff] at hcr ⊢
        intro f hf
        by_cases hkf : k = f
        · simp [assocGet, hkf]
        · rw [assocGet, if_neg hkf]
          exact hcr f hf
      have hprops2 : (checkProps props ((k, v) :: bag)).2 = (checkProps props bag).2 :=
        checkProps_snd_congr props ((k, v) :: bag) bag (fun p hp => by
          have hne : k ≠ p := fun he => hk (he ▸ hp)
          rw [assocGet, if_neg hne])
      simp [validateBag, hreq2, hprops2, hprops]
  · intro ty props1 props2 nm d req bag habs hnr
    cases hcr : checkRequired req bag with
    | some e => simp [validateBag, hcr]
    | none =>
      simp only [validateBag, hcr]
      exact checkProps_snd_append_congr props1 ((nm, d) :: props2) props2 bag
        (by rw [checkProps_cons_absent nm d props2 bag habs])

/-- Witness for claim C8: the example tool's schema still validates the bag
`state: "CA"` after the undeclared key `limit` is added. -/
theorem validation_ignores_undeclared_and_absent_witness :
    (validateBag
        ⟨"object",
          [("state", .vobj [("type", .vstr "string"),
                            ("description", .vstr "The state to get weather alerts for")])],
          ["state"]⟩
        (("limit", .vint 3) :: [("state", .vstr "CA")])).2 = none :=
  validation_ignores_undeclared_and_absent.2.1 "object"
    [("state", .vobj [("type", .vstr "string"),
                      ("description", .vstr "The state to get weather alerts for")])]
    ["state"] "limit" (.vint 3) [("state", .vstr "CA")] (by decide) rfl

/-- Claim C9: validation leaves the argument bag observably unchanged — the
validator's only write overwrites a key with the value it already holds,
which is the identity on the bag; the properties loop and the whole
validation phase return the bag they were given, in failure as in success,
and the handler therefore receives exactly the parameters supplied to
`Tool.Run`. -/
theorem validation_preserves_bag :
    (∀ (bag : Bag) (k : String) (v : Value),
       assocGet bag k = some v → assocSet bag k v = bag) ∧
    (∀ (props : List (String × Value)) (bag : Bag), (checkProps props bag).1 = bag) ∧
    (∀ (schema : ToolInputSchema) (bag : Bag), (validateBag schema bag).1 = bag) ∧
    (∀ (t : Tool) (ctx : Ctx) (params : ToolRunParams),
       (validateBag t.InputSchema params.Args).2 = none →
       Tool.Run t ctx params = t.Handler ctx params) :=
  ⟨fun bag k v h => assocSet_self bag k v h, checkProps_fst, validateBag_fst, run_of_valid⟩

/-- Witness for claim C9: running the example tool on `state: "CA"` is
exactly its handler applied to the original, unchanged parameters. -/
theorem validation_preserves_bag_witness :
    Tool.Run demoTool ⟨0⟩ ⟨"get-forecast", [("state", .vstr "CA")]⟩ =
      demoTool.Handler ⟨0⟩ ⟨"get-forecast", [("state", .vstr "CA")]⟩ :=
  validation_preserves_bag.2.2.2 demoTool ⟨0⟩
    ⟨"get-forecast", [("state", .vstr "CA")]⟩ rfl

/-- Claim C10: the required-field check tests key presence only — it succeeds
exactly when every required name has a key, whatever the values are, so a
required key holding null passes it; a key declared with tag "null" and
holding null passes the type check; and with such a key the whole validation
succeeds and the handler runs, both when the key is undeclared in the
properties and when it is declared with type "null". -/
theorem required_check_presence_only :
    (∀ (req : List String) (bag : Bag),
       checkRequired req bag = none ↔ ∀ f ∈ req, (assocGet bag f).isSome = true) ∧
    (∀ (bag : Bag) (p : String), assocGet bag p = some .vnull →
       propOk bag (p, .vobj [("type", .vstr "null")]) = true) ∧
    (∀ (handler : ToolHandlerFunc) (ctx : Ctx) (nm ds cname : String) (bag : Bag)
       (p : String), assocGet bag p = some .vnull →
       Tool.Run ⟨nm, ds, ⟨"object", [], [p]⟩, handler⟩ ctx ⟨cname, bag⟩ =
           handler ctx ⟨cname, bag⟩ ∧
       Tool.Run ⟨nm, ds, ⟨"object", [(p, .vobj [("type", .vstr "null")])], [p]⟩, handler⟩
           ctx ⟨cname, bag⟩ = handler ctx ⟨cname, bag⟩) := by
  refine ⟨checkRequired_eq_none_iff, ?_, ?_⟩
  · intro bag p h
    simp only [propOk, h]
    rfl
  · intro handler ctx nm ds cname bag p h
    have hreq : checkRequired [p] bag = none := by simp [checkRequired, h]
    constructor
    · apply run_of_valid
      simp [validateBag, hreq, checkProps]
    · apply run_of_valid
      have h2 : (checkProps [(p, .vobj [("type", .vstr "null")])] bag).2 = none := by
        rw [checkProps_cons_pass p [("type", .vstr "null")] "null" [] bag .vnull h rfl rfl]
        rfl
      simp [validateBag, hreq, h2]

/-- Witness for claim C10: a tool requiring `flag` but not declaring it runs
its handler when `flag` is supplied as null. -/
theorem required_check_presence_only_witness :
    Tool.Run ⟨"null-demo", "demo", ⟨"object", [], ["flag"]⟩, demoHandler⟩ ⟨0⟩
        ⟨"null-demo", [("flag", .vnull)]⟩ =
      demoHandler ⟨0⟩ ⟨"null-demo", [("flag", .vnull)]⟩ :=
  (required_check_presence_only.2.2 demoHandler ⟨0⟩ "null-demo" "demo" "null-demo"
      [("flag", .vnull)] "flag" rfl).1

end PlannerMcp
